import Mathlib

/-!
Verification of the FlashMD host core (`src/flashmd_core.c`) and device
firmware dispatcher (`firmware/Core/Src/main.c`, `firmware/Core/Src/MD.c`)
against their natural-language specification.

The C code is shallowly embedded: machine integers become `Nat` (with
explicit `% 2^32` where a `uint32_t` computation can overflow), byte buffers
become `List Nat`, the USB byte stream becomes an explicit list of poll
results, and the firmware's bus side effects become explicit lists of
operation descriptors.
-/

/-! ### Size conversion utilities (flashmd_core.c lines 390-407, flashmd_core.h 15-21) -/

/-- `flashmd_size_t` from `flashmd_core.h`: the five ROM size codes. -/
inductive FlashmdSize where
  | s512K
  | s1M
  | s2M
  | s4M
  | s8M
deriving DecidableEq, Repr

/-- Numeric value of each enumerator (`FLASHMD_SIZE_512K = 0x01`, ...). -/
def flashmd_size_value : FlashmdSize → Nat
  | .s512K => 0x01
  | .s1M => 0x02
  | .s2M => 0x03
  | .s4M => 0x04
  | .s8M => 0x05

/-- `flashmd_size_to_bytes` (flashmd_core.c lines 390-399). -/
def flashmd_size_to_bytes : FlashmdSize → Nat
  | .s512K => 512 * 1024
  | .s1M => 1024 * 1024
  | .s2M => 2 * 1024 * 1024
  | .s4M => 4 * 1024 * 1024
  | .s8M => 8 * 1024 * 1024

/-- `flashmd_kb_to_size` (flashmd_core.c lines 401-407). -/
def flashmd_kb_to_size (kb : Nat) : FlashmdSize :=
  if kb ≤ 512 then .s512K
  else if kb ≤ 1024 then .s1M
  else if kb ≤ 2048 then .s2M
  else if kb ≤ 4096 then .s4M
  else .s8M

/-- `flashmd_result_t` from `flashmd_core.h` lines 24-34. -/
inductive FlashmdResult where
  | ok
  | errUsbInit
  | errDeviceNotFound
  | errClaimInterface
  | errTimeout
  | errIO
  | errFile
  | errInterrupted
  | errInvalidParam
deriving DecidableEq, Repr

/-! ### Size resolution of `flashmd_read_rom` (flashmd_core.c lines 601-619) -/

/-- The size parameters `flashmd_read_rom` resolves before transferring:
size code sent to the device, bytes kept in the file, bytes the device will
stream, and whether the "Auto-detecting ROM size by reading 4MB and
trimming..." message is emitted.  `total_bytes = size_kb * 1024` is a
`uint32_t` product, hence the `% 2 ^ 32`. -/
structure ReadRomPlan where
  sizeCode : FlashmdSize
  totalBytes : Nat
  deviceBytes : Nat
  announcesAutoTrim : Bool
deriving DecidableEq, Repr

/-- Lines 606-619 of `flashmd_read_rom`. -/
def read_rom_plan (size_kb : Nat) : ReadRomPlan :=
  if size_kb = 0 then
    { sizeCode := .s4M
      totalBytes := 4 * 1024 * 1024
      deviceBytes := 4 * 1024 * 1024
      announcesAutoTrim := true }
  else
    let sc := flashmd_kb_to_size size_kb
    let db := flashmd_size_to_bytes sc
    let tb := size_kb * 1024 % 2 ^ 32
    { sizeCode := sc
      totalBytes := if tb > db then db else tb
      deviceBytes := db
      announcesAutoTrim := false }

/-- Line 732 of `flashmd_read_rom`: the 0xFF padding/truncation step runs
only when `no_trim` is set and `size_kb > 0`. -/
def read_rom_pads (size_kb : Nat) (no_trim : Bool) : Bool :=
  no_trim && decide (0 < size_kb)

/-- Line 756 of `flashmd_read_rom`: with a configuration present,
`trim_rom_file` runs iff `no_trim` is unset — independently of `size_kb`. -/
def read_rom_trims (no_trim : Bool) : Bool :=
  !no_trim

/-! ### Dispatch of `flashmd_erase` (flashmd_core.c lines 498-523) -/

/-- Which command `flashmd_erase` issues for a given `size_kb`
(`CMD_FULL_ERASE = 0x0E`, `CMD_SECTOR_ERASE = 0x1E` with a size-code
parameter). -/
inductive EraseAction where
  | fullErase
  | sectorErase (sizeCode : FlashmdSize)
deriving DecidableEq, Repr

/-- Lines 504-518 of `flashmd_erase`: `size_kb = 0` selects the full-chip
erase command, anything else the sector erase with `flashmd_kb_to_size`. -/
def erase_action (size_kb : Nat) : EraseAction :=
  if size_kb = 0 then .fullErase
  else .sectorErase (flashmd_kb_to_size size_kb)

/-! ### Claim C5 -/

/-- C5: `flashmd_kb_to_size` rounds up: `kb ≤ 512 ↦ 512K`,
`513..1024 ↦ 1M`, `1025..2048 ↦ 2M`, `2049..4096 ↦ 4M`, larger `↦ 8M`;
and the operations treat `kb = 0` as a distinct auto/full sentinel before
the size-code conversion is ever consulted: `flashmd_read_rom 0` plans the
4M auto branch (not 512K) and `flashmd_erase 0` performs the full erase
(no size code at all). -/
theorem C5_kb_to_size_spec : ∀ kb : Nat,
    (kb ≤ 512 → flashmd_kb_to_size kb = .s512K) ∧
    (513 ≤ kb → kb ≤ 1024 → flashmd_kb_to_size kb = .s1M) ∧
    (1025 ≤ kb → kb ≤ 2048 → flashmd_kb_to_size kb = .s2M) ∧
    (2049 ≤ kb → kb ≤ 4096 → flashmd_kb_to_size kb = .s4M) ∧
    (4097 ≤ kb → flashmd_kb_to_size kb = .s8M) ∧
    ((read_rom_plan 0).sizeCode = .s4M ∧ (read_rom_plan 0).announcesAutoTrim = true) ∧
    erase_action 0 = .fullErase := by
  intro kb
  refine ⟨?_, ?_, ?_, ?_, ?_, by constructor <;> rfl, rfl⟩ <;>
    · intros
      unfold flashmd_kb_to_size
      split_ifs <;> first | rfl | omega

/-! ### Claim C1 -/

/-- C1: with `size_kb = 0` the host plans a 4 MB read (size code 4M) and
announces "Auto-detecting ROM size by reading 4MB and trimming..." — but
when `no_trim` is set the post-processing neither trims (line 756 tests
`!config->no_trim` with no special case for `size_kb = 0`) nor pads (line
732 requires `size_kb > 0`), contradicting the claim, the API comment in
`flashmd_core.h` ("size_kb = 0 for auto-detect (read 4MB and trim)") and
the message the function itself just emitted. -/
theorem C1_read_rom_auto_no_trim_bug :
    (read_rom_plan 0).sizeCode = .s4M ∧
    (read_rom_plan 0).totalBytes = 4 * 1024 * 1024 ∧
    (read_rom_plan 0).deviceBytes = 4 * 1024 * 1024 ∧
    (read_rom_plan 0).announcesAutoTrim = true ∧
    read_rom_trims true = false ∧
    read_rom_pads 0 true = false := by
  decide

/-! ### Host page/bank stepping of `flashmd_write_rom` (flashmd_core.c lines 851-894) -/

/-- Lines 890-894 of `flashmd_write_rom`: after each chunk, `addj++` wraps
at 64 and carries into `bank`; both are `uint8_t`, hence the `% 256`. -/
def write_rom_step (addj bank : Nat) : Nat × Nat :=
  if 64 ≤ (addj + 1) % 256 then (0, (bank + 1) % 256)
  else ((addj + 1) % 256, bank)

/-- The `(addj, bank)` pair carried by the `WriteRom` command packet of the
k-th chunk (both initialized to 0 at line 853-854). -/
def write_rom_indices : Nat → Nat × Nat
  | 0 => (0, 0)
  | k + 1 => write_rom_step (write_rom_indices k).1 (write_rom_indices k).2

/-- Firmware line 257 (`main.c`, `0x0B` handler): the physical base address
of a ROM write chunk, `addw = bank*64*512 + addj*512`. -/
def rom_write_base (bankP addjP : Nat) : Nat :=
  bankP * 64 * 512 + addjP * 512

/-! ### Claim C8 -/

/-- C8: the page index of the k-th ROM write chunk is `k % 64` and the bank
index is `k / 64` (page cycles 0..63, bank increments exactly once per 64
pages; the bound keeps the `uint8_t` bank from wrapping, which cannot
happen for transfers up to 8 MB = 8192 chunks), and the device resolves
`(bank, page)` to `bank*64*512 + page*512`; in particular `(2, 5)` maps to
`2*64*512 + 5*512`. -/
theorem C8_rom_page_bank_addressing :
    (∀ k, k < 16384 → write_rom_indices k = (k % 64, k / 64)) ∧
    rom_write_base 2 5 = 2 * 64 * 512 + 5 * 512 := by
  refine ⟨?_, rfl⟩
  intro k
  induction k with
  | zero => intro _; rfl
  | succ n ih =>
    intro h
    have hn := ih (by omega)
    show write_rom_step (write_rom_indices n).1 (write_rom_indices n).2 = _
    rw [hn]
    unfold write_rom_step
    split_ifs with hc <;> (simp only [Prod.mk.injEq]; constructor <;> omega)

/-- Witness for C8: the 64th chunk wraps the page back to 0 and moves to
bank 1; chunk 133 sits at page 5, bank 2. -/
theorem C8_rom_page_bank_addressing_witness :
    write_rom_indices 64 = (0, 1) ∧ write_rom_indices 133 = (5, 2) :=
  ⟨by rw [C8_rom_page_bank_addressing.1 64 (by decide)],
   by rw [C8_rom_page_bank_addressing.1 133 (by decide)]⟩

/-! ### Device sector-erase stepping (firmware main.c lines 400-417) -/

/-- Lines 406-415 of the `0x1E` handler: the erase address advances by
`0x1000` below `0x8000` and by `0x8000` from `0x8000` on. -/
def erase_step_addr (address : Nat) : Nat :=
  if address < 0x8000 then address + 0x1000 else address + 0x8000

/-- The addresses passed to `erase_sector` by the `0x1E` loop
(lines 401-416): run from `(address, i)` until `i` reaches `sectoradd`,
with `i` advancing in lockstep with the address. -/
def erase_by_size_addrs (address i sectoradd : Nat) : List Nat :=
  if i < sectoradd then
    address ::
      (if address < 0x8000 then
        erase_by_size_addrs (erase_step_addr address) (i + 0x1000) sectoradd
      else
        erase_by_size_addrs (erase_step_addr address) (i + 0x8000) sectoradd)
  else []
termination_by sectoradd - i
decreasing_by all_goals omega

/-! ### Claim C9 -/

/-- C9: the erase address advances in `0x1000` steps below `0x8000` and in
`0x8000` steps at or above it; stepping from `0x7000` gives `0x8000` and
stepping from `0x8000` gives `0x10000`; the full 512K (`sectoradd =
0x40000`) erase loop therefore visits exactly these fifteen addresses. -/
theorem C9_erase_stepping :
    (∀ a, a < 0x8000 → erase_step_addr a = a + 0x1000) ∧
    (∀ a, 0x8000 ≤ a → erase_step_addr a = a + 0x8000) ∧
    erase_step_addr 0x7000 = 0x8000 ∧
    erase_step_addr 0x8000 = 0x10000 ∧
    erase_by_size_addrs 0 0 0x40000 =
      [0x0, 0x1000, 0x2000, 0x3000, 0x4000, 0x5000, 0x6000, 0x7000,
       0x8000, 0x10000, 0x18000, 0x20000, 0x28000, 0x30000, 0x38000] := by
  refine ⟨?_, ?_, by decide, by decide, ?_⟩
  · intro a h
    unfold erase_step_addr
    split_ifs
    all_goals omega
  · intro a h
    unfold erase_step_addr
    split_ifs
    all_goals omega
  · simp [erase_by_size_addrs, erase_step_addr]

/-- Witness for C9 at the two boundary addresses. -/
theorem C9_erase_stepping_witness :
    erase_step_addr 0x7000 = 0x7000 + 0x1000 ∧
    erase_step_addr 0x8000 = 0x8000 + 0x8000 :=
  ⟨C9_erase_stepping.1 0x7000 (by decide), C9_erase_stepping.2.1 0x8000 (by decide)⟩

/-- Witness for C5 at the range boundaries. -/
theorem C5_kb_to_size_spec_witness :
    flashmd_kb_to_size 0 = .s512K ∧ flashmd_kb_to_size 512 = .s512K ∧
    flashmd_kb_to_size 513 = .s1M ∧ flashmd_kb_to_size 1024 = .s1M ∧
    flashmd_kb_to_size 1025 = .s2M ∧ flashmd_kb_to_size 2048 = .s2M ∧
    flashmd_kb_to_size 2049 = .s4M ∧ flashmd_kb_to_size 4096 = .s4M ∧
    flashmd_kb_to_size 4097 = .s8M ∧ flashmd_kb_to_size 1000000 = .s8M :=
  ⟨(C5_kb_to_size_spec 0).1 (by decide), (C5_kb_to_size_spec 512).1 (by decide),
   (C5_kb_to_size_spec 513).2.1 (by decide) (by decide),
   (C5_kb_to_size_spec 1024).2.1 (by decide) (by decide),
   (C5_kb_to_size_spec 1025).2.2.1 (by decide) (by decide),
   (C5_kb_to_size_spec 2048).2.2.1 (by decide) (by decide),
   (C5_kb_to_size_spec 2049).2.2.2.1 (by decide) (by decide),
   (C5_kb_to_size_spec 4096).2.2.2.1 (by decide) (by decide),
   (C5_kb_to_size_spec 4097).2.2.2.2.1 (by decide),
   (C5_kb_to_size_spec 1000000).2.2.2.2.1 (by decide)⟩

/-! ### The host's USB readers (flashmd_core.c lines 283-369)

One `usb_read(buf, max, poll_interval)` call either fails (`n < 0`), times
out delivering nothing (`n = 0`), or delivers some bytes.  A transfer is
modelled by the list of successive `usb_read` outcomes; since the real call
delivers at most the requested byte count, a delivery is truncated to the
space the reader asked for.  `POLL_INTERVAL_MS = 30`. -/

/-- Outcome of one `usb_read` call. -/
inductive Poll where
  | err
  | bytes (data : List Nat)
deriving DecidableEq, Repr

/-- Result of `read_binary` (flashmd_core.c lines 349-369): `ok total` when
the loop ends with `total ≥ len`, `timeoutFail` when it ends by
`elapsed ≥ timeout_ms` with `total < len` (the function returns -1),
`ioErr` on a negative `usb_read`, `starved` when the modelled poll trace is
exhausted while the loop would keep polling. -/
inductive RbResult where
  | ok (total : Nat)
  | ioErr
  | timeoutFail
  | starved
deriving DecidableEq, Repr

/-- `read_binary` (flashmd_core.c lines 349-369): accumulate until `len`
bytes arrive, adding `poll_interval` to `elapsed` on an empty poll and
resetting `elapsed` to 0 on a delivering one. -/
def read_binary (len timeout_ms : Nat) (polls : List Poll) (total elapsed : Nat) : RbResult :=
  if len ≤ total then .ok total
  else if timeout_ms ≤ elapsed then .timeoutFail
  else
    match polls with
    | [] => .starved
    | .err :: _ => .ioErr
    | .bytes [] :: rest => read_binary len timeout_ms rest total (elapsed + 30)
    | .bytes (b :: d) :: rest =>
        read_binary len timeout_ms rest (total + min (b :: d).length (len - total)) 0

/-- Result of `read_response` (flashmd_core.c lines 283-311), carrying the
accumulated text: `line` when the loop broke on a trailing newline, `full`
when the buffer filled (`total ≥ max_len - 1`), `silence` when
`elapsed ≥ timeout_ms` ended the loop. -/
inductive RrResult where
  | line (buf : List Nat)
  | full (buf : List Nat)
  | silence (buf : List Nat)
  | ioErr
  | starved
deriving DecidableEq, Repr

/-- `read_response` (flashmd_core.c lines 283-311): reads until a newline
(byte 10), a full buffer, or `timeout_ms` of consecutive silence; a
delivering poll appends `min n (max_len - 1 - total)` bytes and resets
`elapsed` to 0 unless the accumulated text now ends in a newline. -/
def read_response (max_len timeout_ms : Nat) (polls : List Poll) (buf : List Nat)
    (elapsed : Nat) : RrResult :=
  if max_len - 1 ≤ buf.length then .full buf
  else if timeout_ms ≤ elapsed then .silence buf
  else
    match polls with
    | [] => .starved
    | .err :: _ => .ioErr
    | .bytes [] :: rest => read_response max_len timeout_ms rest buf (elapsed + 30)
    | .bytes (b :: d) :: rest =>
        let buf2 := buf ++ (b :: d).take (min (b :: d).length (max_len - 1 - buf.length))
        if buf2.getLast? = some 10 then .line buf2
        else read_response max_len timeout_ms rest buf2 0

/-- `strstr(buf, end_pattern)`: the pattern occurs somewhere in the
accumulated bytes. -/
def patternIn (pat acc : List Nat) : Bool :=
  acc.tails.any (fun t => pat.isPrefixOf t)

/-- Result of `read_until_complete` (flashmd_core.c lines 313-347):
`found` when the end pattern was seen (the function drains and returns 0),
`timedOut` when `timeout_ms` of consecutive silence elapsed (the function
emits "Timeout waiting for response" and returns -1). -/
inductive RucResult where
  | found
  | ioErr
  | timedOut
  | starved
deriving DecidableEq, Repr

/-- `read_until_complete` (flashmd_core.c lines 313-347): accumulate text
(capped at 4095 bytes), watch for `end_pattern`, resetting `elapsed` to 0
on every delivering poll. -/
def read_until_complete (pat : List Nat) (timeout_ms : Nat) (polls : List Poll)
    (acc : List Nat) (elapsed : Nat) : RucResult :=
  if timeout_ms ≤ elapsed then .timedOut
  else
    match polls with
    | [] => .starved
    | .err :: _ => .ioErr
    | .bytes [] :: rest => read_until_complete pat timeout_ms rest acc (elapsed + 30)
    | .bytes (b :: d) :: rest =>
        let acc2 := if acc.length + (b :: d).length < 4095 then acc ++ (b :: d) else acc
        if patternIn pat acc2 then .found
        else read_until_complete pat timeout_ms rest acc2 0

/-- Byte codes of the ASCII text "SRAM ERASE FINISH", the end pattern of
the full-erase wait (flashmd_core.c line 509). -/
def sram_erase_finish_pat : List Nat :=
  [83, 82, 65, 77, 32, 69, 82, 65, 83, 69, 32, 70, 73, 78, 73, 83, 72]

/-- Byte codes of the ASCII text "ERASE OK", the end pattern of the
sector-erase wait (flashmd_core.c line 521). -/
def erase_ok_pat : List Nat :=
  [69, 82, 65, 83, 69, 32, 79, 75]

/-- `flashmd_erase` (flashmd_core.c lines 498-523) after a successful
`flashmd_device_init`, as (command byte sent, returned result) given the
poll trace of the completion wait.  On both paths the source discards the
value of `read_until_complete` and returns `FLASHMD_OK`. -/
def flashmd_erase (size_kb : Nat) (polls : List Poll) : Nat × FlashmdResult :=
  if size_kb = 0 then
    let _wait := read_until_complete sram_erase_finish_pat 3000 polls [] 0
    (0x0E, .ok)
  else
    let _wait := read_until_complete erase_ok_pat 5000 polls [] 0
    (0x1E, .ok)

/-- A silent poll trace long enough that its 100 empty polls accumulate
`100 * 30 = 3000` ms of elapsed silence. -/
def silent_polls_100 : List Poll := List.replicate 100 (Poll.bytes [])

/-- Helper: a trace of nothing but empty polls long enough to exhaust the
timeout budget makes `read_until_complete` time out. -/
theorem ruc_all_silent_timedOut (pat : List Nat) (t : Nat) :
    ∀ (n : Nat) (acc : List Nat) (elapsed : Nat), t ≤ elapsed + 30 * n →
      read_until_complete pat t (List.replicate n (.bytes [])) acc elapsed = .timedOut := by
  intro n
  induction n with
  | zero =>
    intro acc elapsed h
    unfold read_until_complete
    rw [if_pos (by omega)]
  | succ m ih =>
    intro acc elapsed h
    unfold read_until_complete
    split_ifs with hc
    · rfl
    · rw [List.replicate_succ]
      exact ih acc (elapsed + 30) (by omega)

/-! ### Claim C2 -/

/-- C2 counterexample: on a trace of 3000 ms of pure silence the
completion wait of the full erase does time out, yet `flashmd_erase 0`
still returns `FLASHMD_OK` (line 509 discards the result of
`read_until_complete`), not the claimed `Timeout`. -/
theorem C2_erase_silence_counterexample :
    read_until_complete sram_erase_finish_pat 3000 silent_polls_100 [] 0 = .timedOut ∧
    flashmd_erase 0 silent_polls_100 = (0x0E, .ok) ∧
    (flashmd_erase 0 silent_polls_100).2 ≠ .errTimeout := by
  refine ⟨?_, rfl, by decide⟩
  exact ruc_all_silent_timedOut _ _ 100 [] 0 (by norm_num)

/-- C2 (amended): `flashmd_erase` with `sizeKb = 0` issues `EraseFull`
(0x0E) and blocks on `read_until_complete` until the completion marker
"SRAM ERASE FINISH" is seen or 3000 ms of consecutive silence elapse; in
the silence case the wait helper reports a timeout (and an error message),
but `flashmd_erase` discards that result and returns `Ok`, not `Timeout`. -/
theorem C2_erase_full_amended :
    (∀ polls, flashmd_erase 0 polls = (0x0E, FlashmdResult.ok)) ∧
    (∀ n acc elapsed, 3000 ≤ elapsed + 30 * n →
      read_until_complete sram_erase_finish_pat 3000
        (List.replicate n (.bytes [])) acc elapsed = .timedOut) ∧
    (∀ d rest, patternIn sram_erase_finish_pat d = true → d.length < 4095 →
      read_until_complete sram_erase_finish_pat 3000 (.bytes d :: rest) [] 0 = .found) := by
  refine ⟨fun _ => rfl, fun n acc elapsed h => ruc_all_silent_timedOut _ _ n acc elapsed h, ?_⟩
  intro d rest hpat hlen
  match d with
  | [] => exact absurd hpat (by decide)
  | b :: tl =>
    have hacc : (if List.length ([] : List Nat) + (b :: tl).length < 4095
        then ([] : List Nat) ++ (b :: tl) else []) = b :: tl := by
      rw [if_pos (by simpa using hlen)]
      rfl
    unfold read_until_complete
    rw [if_neg (by omega)]
    show (if patternIn sram_erase_finish_pat
            (if List.length ([] : List Nat) + (b :: tl).length < 4095
              then [] ++ (b :: tl) else []) = true
          then RucResult.found
          else _) = RucResult.found
    rw [hacc, if_pos hpat]

/-- Witness for C2 (amended): the wait finds a directly delivered marker,
and 120 empty polls time out. -/
theorem C2_erase_full_amended_witness :
    flashmd_erase 0 [] = (0x0E, FlashmdResult.ok) ∧
    read_until_complete sram_erase_finish_pat 3000
      (List.replicate 120 (.bytes [])) [] 0 = .timedOut ∧
    read_until_complete sram_erase_finish_pat 3000
      [.bytes sram_erase_finish_pat] [] 0 = .found :=
  ⟨C2_erase_full_amended.1 [],
   C2_erase_full_amended.2.1 120 [] 0 (by norm_num),
   C2_erase_full_amended.2.2 sram_erase_finish_pat [] (by decide) (by decide)⟩

/-! ### Claim C10: silence-only timeout budgets -/

/-- A poll that delivered at least one byte. -/
def dataPoll : Poll → Bool
  | .bytes (_ :: _) => true
  | _ => false

/-- Every suffix of the trace that still holds `N` or more polls sees a
delivering poll among its first `N` entries — i.e. the stream never stays
silent for `N` consecutive polls (`N * 30` ms at the 30 ms poll interval). -/
def deliversWithin (N : Nat) (polls : List Poll) : Bool :=
  polls.tails.all (fun r => decide (r.length < N) || (r.take N).any dataPoll)

/-- Propositional form of `deliversWithin` used by the inductions. -/
def goodTrace (N : Nat) (l : List Poll) : Prop :=
  ∀ r, r <:+ l → N ≤ r.length → (r.take N).any dataPoll = true

theorem deliversWithin_goodTrace {N : Nat} {l : List Poll}
    (h : deliversWithin N l = true) : goodTrace N l := by
  intro r hr hlen
  unfold deliversWithin at h
  rw [List.all_eq_true] at h
  have h2 := h r ((List.mem_tails r l).mpr hr)
  simp only [Bool.or_eq_true, decide_eq_true_eq] at h2
  rcases h2 with h2 | h2
  · omega
  · exact h2

theorem goodTrace_suffix {N : Nat} {l r : List Poll} (h : goodTrace N l)
    (hr : r <:+ l) : goodTrace N r :=
  fun s hs hlen => h s (hs.trans hr) hlen

/-- A trace that starts with `z` consecutive empty polls and satisfies
`goodTrace N` has `z < N`. -/
theorem goodTrace_zero_run {N z : Nat} {polls : List Poll}
    (h : goodTrace N (List.replicate z (.bytes []) ++ polls)) : z < N := by
  by_contra hz
  push_neg at hz
  have hlen : N ≤ (List.replicate z (Poll.bytes []) ++ polls).length := by
    simp only [List.length_append, List.length_replicate]
    omega
  have h2 := h _ (List.suffix_refl _) hlen
  rw [List.take_append_of_le_length (by simp only [List.length_replicate]; omega),
    List.take_replicate] at h2
  rw [List.any_eq_true] at h2
  rcases h2 with ⟨p, hp, hdp⟩
  rw [List.mem_replicate] at hp
  rw [hp.2] at hdp
  exact absurd hdp (by decide)

theorem replicate_cons_shift {α : Type} (z : Nat) (a : α) (rest : List α) :
    List.replicate z a ++ (a :: rest) = List.replicate (z + 1) a ++ rest := by
  rw [List.replicate_succ', List.append_assoc]
  rfl

/-- Helper for C10: `read_binary` cannot end in the timeout failure when no
poll errs and the trace never stays silent `N` polls in a row
(`30 * (N-1) < timeout_ms`); `30 * z` is the silence already accumulated. -/
theorem read_binary_no_timeout_aux {N len timeout_ms : Nat}
    (hT : 30 * (N - 1) < timeout_ms) :
    ∀ (polls : List Poll) (z total : Nat), Poll.err ∉ polls →
      goodTrace N (List.replicate z (.bytes []) ++ polls) →
      read_binary len timeout_ms polls total (30 * z) ≠ .timeoutFail := by
  intro polls
  induction polls with
  | nil =>
    intro z total _ hg
    have hz := goodTrace_zero_run hg
    unfold read_binary
    split_ifs with h1 h2
    · intro hcon; cases hcon
    · omega
    · intro hcon; cases hcon
  | cons p rest ih =>
    intro z total hne hg
    have hz := goodTrace_zero_run hg
    unfold read_binary
    split_ifs with h1 h2
    · intro hcon; cases hcon
    · omega
    · match p with
      | .err => exact absurd (List.mem_cons_self _ _) hne
      | .bytes [] =>
        have hg2 : goodTrace N (List.replicate (z + 1) (.bytes []) ++ rest) := by
          rw [← replicate_cons_shift]
          exact hg
        exact ih (z + 1) total (fun hm => hne (List.mem_cons_of_mem _ hm)) hg2
      | .bytes (b :: d) =>
        have hg2 : goodTrace N (List.replicate 0 (.bytes []) ++ rest) := by
          exact goodTrace_suffix hg
            (((List.suffix_cons _ _).trans (List.suffix_append _ _)))
        exact ih 0 _ (fun hm => hne (List.mem_cons_of_mem _ hm)) hg2

/-- Discriminator for the silence exit of `read_response`. -/
def RrResult.isSilence : RrResult → Bool
  | .silence _ => true
  | _ => false

/-- Helper for C10: `read_response` cannot exit through the silence branch
when no poll errs and the trace never stays silent `N` polls in a row. -/
theorem read_response_no_timeout_aux {N max_len timeout_ms : Nat}
    (hT : 30 * (N - 1) < timeout_ms) :
    ∀ (polls : List Poll) (z : Nat) (buf : List Nat), Poll.err ∉ polls →
      goodTrace N (List.replicate z (.bytes []) ++ polls) →
      (read_response max_len timeout_ms polls buf (30 * z)).isSilence = false := by
  intro polls
  induction polls with
  | nil =>
    intro z buf _ hg
    have hz := goodTrace_zero_run hg
    unfold read_response
    split_ifs with h1 h2
    · rfl
    · omega
    · rfl
  | cons p rest ih =>
    intro z buf hne hg
    have hz := goodTrace_zero_run hg
    unfold read_response
    split_ifs with h1 h2
    · rfl
    · omega
    · match p with
      | .err => exact absurd (List.mem_cons_self _ _) hne
      | .bytes [] =>
        have hg2 : goodTrace N (List.replicate (z + 1) (.bytes []) ++ rest) := by
          rw [← replicate_cons_shift]
          exact hg
        exact ih (z + 1) buf (fun hm => hne (List.mem_cons_of_mem _ hm)) hg2
      | .bytes (b :: d) =>
        have hg2 : goodTrace N (List.replicate 0 (.bytes []) ++ rest) :=
          goodTrace_suffix hg
            ((List.suffix_cons _ _).trans (List.suffix_append _ _))
        have hne2 : Poll.err ∉ rest := fun hm => hne (List.mem_cons_of_mem _ hm)
        dsimp only
        split_ifs with hnl
        · rfl
        · exact ih 0 _ hne2 hg2

/-- Helper for C10: `read_until_complete` cannot time out when no poll errs
and the trace never stays silent `N` polls in a row. -/
theorem ruc_no_timeout_aux {N timeout_ms : Nat} {pat : List Nat}
    (hT : 30 * (N - 1) < timeout_ms) :
    ∀ (polls : List Poll) (z : Nat) (acc : List Nat), Poll.err ∉ polls →
      goodTrace N (List.replicate z (.bytes []) ++ polls) →
      read_until_complete pat timeout_ms polls acc (30 * z) ≠ .timedOut := by
  intro polls
  induction polls with
  | nil =>
    intro z acc _ hg
    have hz := goodTrace_zero_run hg
    unfold read_until_complete
    split_ifs with h1
    · omega
    · intro hcon; cases hcon
  | cons p rest ih =>
    intro z acc hne hg
    have hz := goodTrace_zero_run hg
    unfold read_until_complete
    split_ifs with h1
    · omega
    · match p with
      | .err => exact absurd (List.mem_cons_self _ _) hne
      | .bytes [] =>
        have hg2 : goodTrace N (List.replicate (z + 1) (.bytes []) ++ rest) := by
          rw [← replicate_cons_shift]
          exact hg
        exact ih (z + 1) acc (fun hm => hne (List.mem_cons_of_mem _ hm)) hg2
      | .bytes (b :: d) =>
        have hg2 : goodTrace N (List.replicate 0 (.bytes []) ++ rest) :=
          goodTrace_suffix hg
            ((List.suffix_cons _ _).trans (List.suffix_append _ _))
        have hne2 : Poll.err ∉ rest := fun hm => hne (List.mem_cons_of_mem _ hm)
        dsimp only
        split_ifs <;>
          first
            | (intro hcon; cases hcon)
            | exact ih 0 _ hne2 hg2

/-- C10: in all three host readers the timeout budget measures only
consecutive silence: every delivering poll resets `elapsed` to 0 (the last
two conjuncts exhibit the reset for `read_binary`), so on any error-free
trace in which every window of `N` consecutive polls (with
`30 * (N-1) < timeout_ms`, e.g. `N = 167` for the 5000 ms budget) contains
a delivering poll, none of `read_binary`, `read_response`,
`read_until_complete` ends in its timeout exit, regardless of the total
length of the trace. -/
theorem C10_readers_timeout_is_consecutive_silence :
    ∀ (N len max_len timeout_ms : Nat) (pat : List Nat) (polls : List Poll),
      30 * (N - 1) < timeout_ms →
      Poll.err ∉ polls →
      deliversWithin N polls = true →
      (read_binary len timeout_ms polls 0 0 ≠ .timeoutFail ∧
       (read_response max_len timeout_ms polls [] 0).isSilence = false ∧
       read_until_complete pat timeout_ms polls [] 0 ≠ .timedOut) ∧
      (∀ rest b d total elapsed, total < len → elapsed < timeout_ms →
        read_binary len timeout_ms (.bytes (b :: d) :: rest) total elapsed =
          read_binary len timeout_ms rest
            (total + min (b :: d).length (len - total)) 0) ∧
      (∀ rest total elapsed, total < len → elapsed < timeout_ms →
        read_binary len timeout_ms (.bytes [] :: rest) total elapsed =
          read_binary len timeout_ms rest total (elapsed + 30)) := by
  intro N len max_len timeout_ms pat polls hT hne hdw
  have hg : goodTrace N (List.replicate 0 (.bytes []) ++ polls) := by
    simpa using deliversWithin_goodTrace hdw
  refine ⟨⟨read_binary_no_timeout_aux hT polls 0 0 hne hg,
          read_response_no_timeout_aux hT polls 0 [] hne hg,
          ruc_no_timeout_aux hT polls 0 [] hne hg⟩, ?_, ?_⟩
  · intro rest b d total elapsed h1 h2
    conv_lhs => unfold read_binary
    rw [if_neg (by omega), if_neg (by omega)]
  · intro rest total elapsed h1 h2
    conv_lhs => unfold read_binary
    rw [if_neg (by omega), if_neg (by omega)]

/-- Witness for C10 on a short concrete trace (two delivering polls
separated by an empty poll) with `N = 167`, budgets 5000 ms. -/
theorem C10_readers_timeout_witness :
    read_binary 8 5000 [Poll.bytes [1, 2, 3], .bytes [], .bytes [4, 5, 6, 7, 8]]
      0 0 ≠ .timeoutFail ∧
    (read_response 256 5000 [Poll.bytes [1, 2, 3], .bytes [], .bytes [4, 5, 6, 7, 8]]
      [] 0).isSilence = false ∧
    read_until_complete erase_ok_pat 5000
      [Poll.bytes [1, 2, 3], .bytes [], .bytes [4, 5, 6, 7, 8]] [] 0 ≠ .timedOut :=
  (C10_readers_timeout_is_consecutive_silence 167 8 256 5000 erase_ok_pat
    [Poll.bytes [1, 2, 3], .bytes [], .bytes [4, 5, 6, 7, 8]]
    (by norm_num) (by decide) (by decide)).1

/-! ### Trimming trailing 0xFF (flashmd_core.c lines 528-599) -/

/-- The backward byte scan inside one buffered block of `trim_rom_file`
(lines 573-578): index of the last byte of `chunk` that is not `0xFF`. -/
def find_last_non_ff : List Nat → Option Nat
  | [] => none
  | b :: rest =>
    match find_last_non_ff rest with
    | some i => some (i + 1)
    | none => if b ≠ 0xFF then some 0 else none

/-- The `while (pos > 0)` loop of `trim_rom_file` (lines 550-584): scan the
file backward in blocks of `TRIM_BUFFER_SIZE = 4096` bytes; the first block
(from the back) holding a non-`0xFF` byte fixes `new_size = seek_to + i + 1`;
running off the front of an all-`0xFF` file yields 0. -/
def trim_scan (data : List Nat) (pos : Nat) : Nat :=
  if pos = 0 then 0
  else
    let seek_to := if pos < 4096 then 0 else pos - 4096
    let chunk_size := if pos < 4096 then pos else 4096
    match find_last_non_ff ((data.drop seek_to).take chunk_size) with
    | some i => seek_to + i + 1
    | none => trim_scan data seek_to
termination_by pos
decreasing_by
  split <;> omega

/-- The `new_size` computed by `trim_rom_file` over the whole file. -/
def trim_new_size (data : List Nat) : Nat :=
  trim_scan data data.length

/-- The file content `trim_rom_file` leaves behind: truncated to
`new_size` when it shrank (and unchanged when `new_size = file_size`,
where `take` is also the identity). -/
def trim_rom_file (data : List Nat) : List Nat :=
  data.take (trim_new_size data)

/-- Reference form of the scan result: one past the last non-`0xFF` byte,
or 0 when there is none. -/
def last_non_ff_end (data : List Nat) : Nat :=
  match find_last_non_ff data with
  | some i => i + 1
  | none => 0

theorem find_last_non_ff_append (xs ys : List Nat) :
    find_last_non_ff (xs ++ ys) =
      (match find_last_non_ff ys with
       | some j => some (xs.length + j)
       | none => find_last_non_ff xs) := by
  induction xs with
  | nil =>
    cases h1 : find_last_non_ff ys <;> simp [h1, find_last_non_ff]
  | cons x xs ih =>
    rw [List.cons_append]
    rw [show find_last_non_ff (x :: (xs ++ ys)) =
          (match find_last_non_ff (xs ++ ys) with
           | some i => some (i + 1)
           | none => if x ≠ 0xFF then some 0 else none) from rfl]
    rw [ih]
    cases h1 : find_last_non_ff ys with
    | none => rfl
    | some j =>
      show (some (xs.length + j + 1) : Option Nat) = some ((x :: xs).length + j)
      simp only [List.length_cons, Option.some.injEq]
      omega

theorem find_last_non_ff_replicate (n : Nat) :
    find_last_non_ff (List.replicate n 0xFF) = none := by
  induction n with
  | zero => rfl
  | succ m ih => simp [List.replicate_succ, find_last_non_ff, ih]

theorem find_last_non_ff_take (data : List Nat) :
    ∀ i, find_last_non_ff data = some i →
      find_last_non_ff (data.take (i + 1)) = some i := by
  induction data with
  | nil => intro i h; cases h
  | cons b rest ih =>
    intro i h
    rw [find_last_non_ff] at h
    cases hr : find_last_non_ff rest with
    | some j =>
      rw [hr] at h
      cases h
      rw [List.take_succ_cons, find_last_non_ff, ih j hr]
    | none =>
      rw [hr] at h
      split_ifs at h with hb
      cases h
      simp [find_last_non_ff, hb]

theorem find_last_non_ff_lt_length (data : List Nat) :
    ∀ i, find_last_non_ff data = some i → i < data.length := by
  induction data with
  | nil => intro i h; cases h
  | cons b rest ih =>
    intro i h
    rw [find_last_non_ff] at h
    cases hr : find_last_non_ff rest with
    | some j =>
      rw [hr] at h
      cases h
      have := ih j hr
      simp only [List.length_cons]
      omega
    | none =>
      rw [hr] at h
      split_ifs at h with hb
      cases h
      simp

/-- The block loop computes exactly "one past the last non-`0xFF` byte" of
the first `pos` bytes of the file. -/
theorem trim_scan_eq (data : List Nat) :
    ∀ pos, pos ≤ data.length → trim_scan data pos = last_non_ff_end (data.take pos) := by
  intro pos
  induction pos using Nat.strong_induction_on with
  | _ pos ih =>
    intro hpos
    unfold trim_scan
    split_ifs with h0 hlt
    · subst h0; rfl
    · dsimp only
      rw [List.drop_zero]
      cases hc : find_last_non_ff (data.take pos) with
      | some i =>
        show 0 + i + 1 = last_non_ff_end (data.take pos)
        unfold last_non_ff_end
        rw [hc]
        show 0 + i + 1 = i + 1
        omega
      | none =>
        show trim_scan data 0 = last_non_ff_end (data.take pos)
        unfold last_non_ff_end
        rw [hc]
        show trim_scan data 0 = 0
        unfold trim_scan
        rfl
    · dsimp only
      have hp : pos - 4096 + 4096 = pos := by omega
      have hdecomp : data.take pos =
          data.take (pos - 4096) ++ (data.drop (pos - 4096)).take 4096 := by
        conv_lhs => rw [← hp]
        rw [List.take_add]
      have hlen : (data.take (pos - 4096)).length = pos - 4096 := by
        rw [List.length_take]
        exact inf_eq_left.mpr (by omega)
      cases hc : find_last_non_ff ((data.drop (pos - 4096)).take 4096) with
      | some i =>
        show pos - 4096 + i + 1 = last_non_ff_end (data.take pos)
        unfold last_non_ff_end
        rw [hdecomp, find_last_non_ff_append, hc, hlen]
      | none =>
        show trim_scan data (pos - 4096) = last_non_ff_end (data.take pos)
        rw [ih (pos - 4096) (by omega) (by omega)]
        unfold last_non_ff_end
        rw [hdecomp, find_last_non_ff_append, hc]

theorem trim_new_size_eq (data : List Nat) :
    trim_new_size data = last_non_ff_end data := by
  unfold trim_new_size
  rw [trim_scan_eq data data.length le_rfl, List.take_length]

theorem last_non_ff_end_take_self (data : List Nat) :
    last_non_ff_end (data.take (last_non_ff_end data)) = last_non_ff_end data := by
  cases hc : find_last_non_ff data with
  | none =>
    have h1 : last_non_ff_end data = 0 := by unfold last_non_ff_end; rw [hc]
    rw [h1]
    rfl
  | some i =>
    have h1 : last_non_ff_end data = i + 1 := by unfold last_non_ff_end; rw [hc]
    rw [h1]
    unfold last_non_ff_end
    rw [find_last_non_ff_take data i hc]

/-! ### Claim C7 -/

/-- C7: the trim of `trim_rom_file` is idempotent, maps an all-`0xFF` file
to the empty (length-0) file, and leaves any file whose last byte is not
`0xFF` unchanged. -/
theorem C7_trim_properties :
    (∀ data : List Nat, trim_rom_file (trim_rom_file data) = trim_rom_file data) ∧
    (∀ n : Nat, trim_rom_file (List.replicate n 0xFF) = []) ∧
    (∀ (data : List Nat) (b : Nat), b ≠ 0xFF →
      trim_rom_file (data ++ [b]) = data ++ [b]) := by
  refine ⟨?_, ?_, ?_⟩
  · intro data
    unfold trim_rom_file
    rw [trim_new_size_eq data, trim_new_size_eq (data.take (last_non_ff_end data)),
      last_non_ff_end_take_self]
    simp [List.take_take]
  · intro n
    unfold trim_rom_file
    rw [trim_new_size_eq]
    have h0 : last_non_ff_end (List.replicate n 0xFF) = 0 := by
      unfold last_non_ff_end
      rw [find_last_non_ff_replicate]
    rw [h0]
    rfl
  · intro data b hb
    unfold trim_rom_file
    rw [trim_new_size_eq]
    have h1 : find_last_non_ff (data ++ [b]) = some data.length := by
      rw [find_last_non_ff_append]
      have h2 : find_last_non_ff [b] = some 0 := by simp [find_last_non_ff, hb]
      rw [h2]
      rfl
    have h2 : last_non_ff_end (data ++ [b]) = data.length + 1 := by
      unfold last_non_ff_end
      rw [h1]
    rw [h2]
    apply List.take_of_length_le
    simp

/-- Witness for C7: idempotence on a mixed file, an all-`0xFF` file of five
bytes, and a file ending in byte 9. -/
theorem C7_trim_properties_witness :
    trim_rom_file (trim_rom_file [1, 255, 2, 255, 255]) =
      trim_rom_file [1, 255, 2, 255, 255] ∧
    trim_rom_file (List.replicate 5 0xFF) = [] ∧
    trim_rom_file ([255, 255, 7] ++ [9]) = [255, 255, 7] ++ [9] :=
  ⟨C7_trim_properties.1 [1, 255, 2, 255, 255],
   C7_trim_properties.2.1 5,
   C7_trim_properties.2.2 [255, 255, 7] 9 (by decide)⟩

/-! ### Device firmware dispatcher (firmware/Core/Src/main.c lines 164-477)

The firmware's `while (1)` loop checks the pending 64-byte command slot
`cmdbuff` against each opcode in turn; a handler that fires clears the slot,
so at most one handler acts per pass.  Bus side effects are recorded as
`BusOp` descriptors (`setByte`, the inline 16-bit flash data write, reads,
`erase_sector` / `eraseFLASH` / `checkid` invocations, SRAM-overlay
latching); CDC transmissions are recorded as `DevOut` values, with the
`sprintf`-formatted lines and the duration-dependent progress chatter of
`eraseFLASH` / `checkid` represented by dedicated constructors.  The
cartridge is a pure read function (`busWord` for 16-bit reads, `busByte`
for 8-bit SRAM reads). -/

/-- GPIOE direction of the shared data bus (`read_mode` / `write_mode`). -/
inductive BusMode where
  | readM
  | writeM
deriving DecidableEq, Repr

/-- Firmware globals touched by the dispatcher: the command slot, the
16×64-byte staging buffer (kept row-major as 1024 bytes), `buffcnt`, the
global `bank` counter and the bus direction. -/
structure DevState where
  cmdbuff : List Nat
  receiveBuffer : List Nat
  buffcnt : Nat
  bank : Nat
  busMode : BusMode
deriving DecidableEq, Repr

/-- One CDC transmission. -/
inductive DevOut where
  | text (s : String)
  | chunk (data : List Nat)
  | writeOkRom (addr : Nat)
  | writeOkSram (addr : Nat)
  | sectorEraseStartMsg (addr : Nat)
  | sectorEraseOkMsg (addr : Nat)
  | eraseFlashTrace
  | checkIdTrace
deriving DecidableEq, Repr

/-- One bus-level side effect. -/
inductive BusOp where
  | setByteOp (addr val : Nat)
  | flashDataWrite (addr hi lo : Nat)
  | romWordRead (addr : Nat)
  | sramRead (addr : Nat) (a20 : Bool)
  | sramWrite (addr val : Nat) (a20 : Bool)
  | eraseSectorCall (addr : Nat)
  | eraseFlashCall
  | checkIdCall
  | enableSram (enabled : Bool)
deriving DecidableEq, Repr

/-- The 4-byte magic check `AA 55 AA BB` repeated in every handler
(e.g. lines 167, 214, 254, 470). -/
def magicOk (cmd : List Nat) : Bool :=
  cmd.getD 1 0 == 0xAA && cmd.getD 2 0 == 0x55 &&
    cmd.getD 3 0 == 0xAA && cmd.getD 4 0 == 0xBB

/-- `cmdclear()` (lines 109-115): the slot is zeroed. -/
def cleared_cmdbuff : List Nat := List.replicate 64 0

/-- `memclear()` (lines 88-97): note the loop bound `i < 15` clears only
rows 0..14 of the 16-row staging buffer, so the last 64 bytes survive. -/
def memcleared (rb : List Nat) : List Nat :=
  List.replicate 960 0 ++ rb.drop 960

/-- ROM dump size table of the `0x0A` handler (lines 169-184). -/
def rom_dump_wsize_msg (sel : Nat) : Nat × String :=
  if sel == 0x04 then (4096, "4M ROM DUMP START!!!\r\n")
  else if sel == 0x02 then (1024, "1M ROM DUMP START!!!\r\n")
  else if sel == 0x03 then (2048, "2M ROM DUMP START!!!\r\n")
  else (512, "512K ROM DUMP START!!!\r\n")

/-- Bus reads of the ROM dump loop (lines 191-202): 16-bit word reads at
`j*512 + i` for page `j` and word offset `i`. -/
def rom_dump_reads (wsize : Nat) : List BusOp :=
  (List.range wsize).flatMap
    (fun j => (List.range 512).map (fun i => BusOp.romWordRead (j * 512 + i)))

/-- Transmitted chunks of the ROM dump loop: per page, 512 words split
high-byte-first into 1024 bytes (lines 197-198, 203). -/
def rom_dump_chunks (busWord : Nat → Nat) (wsize : Nat) : List DevOut :=
  (List.range wsize).map (fun j =>
    DevOut.chunk ((List.range 512).flatMap
      (fun i => [busWord (j * 512 + i) / 256 % 256, busWord (j * 512 + i) % 256])))

/-- SRAM dump size table of the `0x1A` handler (lines 216-223). -/
def sram_dump_wsize_msg (sel : Nat) : Nat × String :=
  if sel == 0x01 then (32, "32K RAM DUMP START!!!\r\n")
  else (8, "8K ROM DUMP START!!!\r\n")

/-- Bus reads of the SRAM dump loop (lines 230-241): byte reads at
`j*1024 + i` with the A20 line (`PAout(4) = 1`) asserted. -/
def sram_dump_reads (wsize : Nat) : List BusOp :=
  (List.range wsize).flatMap
    (fun j => (List.range 1024).map (fun i => BusOp.sramRead (j * 1024 + i) true))

/-- Transmitted chunks of the SRAM dump loop (lines 237, 242). -/
def sram_dump_chunks (busByte : Nat → Nat) (wsize : Nat) : List DevOut :=
  (List.range wsize).map (fun j =>
    DevOut.chunk ((List.range 1024).map (fun i => busByte (j * 1024 + i) % 256)))

/-- One 16-bit word of the `0x0B` flash write loop (lines 258-278): the
word starting at chunk byte index `i` (even) is skipped iff both of its
bytes read `0xFF`; otherwise the JEDEC unlock + program-command prefix is
issued and both bytes go out in one bus write at word address
`i/2 + addw`. -/
def flash_word_ops (rb : List Nat) (addw i : Nat) : List BusOp :=
  if rb.getD i 0 == 0xFF && rb.getD (i + 1) 0 == 0xFF then []
  else
    [BusOp.setByteOp 0x555 0xAA, BusOp.setByteOp 0x2AA 0x55,
     BusOp.setByteOp 0x555 0xA0,
     BusOp.flashDataWrite (i / 2 + addw) (rb.getD i 0) (rb.getD (i + 1) 0)]

/-- The whole `0x0B` programming loop: `i = 0, 2, ..., 1022`. -/
def flash_program_ops (rb : List Nat) (addw : Nat) : List BusOp :=
  (List.range 512).flatMap (fun w => flash_word_ops rb addw (2 * w))

/-- Firmware line 291 (`0x1B` handler): `addw = bank*64*1024 + addj*1024`. -/
def sram_write_base (bankP addjP : Nat) : Nat :=
  bankP * 64 * 1024 + addjP * 1024

/-- The `0x1B` SRAM write loop (lines 294-306): one byte write per offset
`i < 1024` at `i + addw` with A20 asserted. -/
def sram_write_ops (rb : List Nat) (addw : Nat) : List BusOp :=
  (List.range 1024).map (fun i => BusOp.sramWrite (i + addw) (rb.getD i 0) true)

/-- The `0x0E` handler's SRAM clear loop (lines 343-355): 32768 zero writes
with A20 asserted. -/
def sram_zero_writes : List BusOp :=
  (List.range 32768).map (fun j => BusOp.sramWrite j 0 true)

/-- Size-code table of the `0x1E` handler (lines 366-399): total erase span
`sectoradd` and the announcement text, for `sel` equal to 1..4 or other
non-zero values; `sel = 0` (explicit address) and `sel ≥ 5` are handled in
the dispatcher. -/
def sector_erase_span_msg (sel : Nat) : Nat × String :=
  if sel == 0x1 then (0x40000, "512K ERASEING\r\n")
  else if sel == 0x2 then (0x80000, "1M ERASEING\r\n")
  else if sel == 0x3 then (0x100000, "2M ERASEING\r\n")
  else if sel == 0x4 then (0x200000, "4M ERASEING\r\n")
  else (0x40000, "512K ERASEING\r\n")

/-- Closing text of the `0x1E` handler (lines 421-449) for non-zero `sel`. -/
def sector_erase_done_msg (sel : Nat) : String :=
  if sel == 0x1 then "\r\n512K ERASE OK!\r\n"
  else if sel == 0x2 then "\r\n1M ERASE OK!\r\n"
  else if sel == 0x3 then "\r\n2M ERASE OK!\r\n"
  else if sel == 0x4 then "\r\n4M ERASE OK!\r\n"
  else if sel == 0x5 then "\r\n8M ERASE OK!\r\n"
  else "\r\n512K ERASE OK!\r\n"

/-- The `0x0A` handler body under a valid magic (lines 168-211, including
the trailing prompt and `write_mode`/`cmdclear`/`buffcnt = 0` tail). -/
def handler_read_rom (busWord : Nat → Nat) (st : DevState) :
    DevState × List DevOut × List BusOp :=
  let ws := rom_dump_wsize_msg (st.cmdbuff.getD 5 0)
  ({ st with cmdbuff := cleared_cmdbuff, buffcnt := 0, busMode := .writeM },
   [DevOut.text ws.2] ++ rom_dump_chunks busWord ws.1 ++
     [DevOut.text "DUMPER ROM FINISH!!!\r\n",
      DevOut.text "PUSH SAVE GAME BUTTON!!!\r\n"],
   rom_dump_reads ws.1)

/-- Lines 208-211: the `0x0A` tail that runs even on a magic mismatch. -/
def rom_dump_tail (st : DevState) : DevState × List DevOut × List BusOp :=
  ({ st with cmdbuff := cleared_cmdbuff, buffcnt := 0, busMode := .writeM },
   [DevOut.text "PUSH SAVE GAME BUTTON!!!\r\n"], [])

/-- The `0x1A` handler body under a valid magic (lines 215-251). -/
def handler_read_sram (busByte : Nat → Nat) (st : DevState) :
    DevState × List DevOut × List BusOp :=
  let ws := sram_dump_wsize_msg (st.cmdbuff.getD 5 0)
  ({ st with cmdbuff := cleared_cmdbuff, buffcnt := 0, busMode := .writeM },
   [DevOut.text ws.2] ++ sram_dump_chunks busByte ws.1 ++
     [DevOut.text "DUMPER RAM FINISH!!!\r\n"],
   [BusOp.enableSram true] ++ sram_dump_reads ws.1 ++ [BusOp.enableSram false])

/-- Lines 249-251: the `0x1A` tail that runs even on a magic mismatch. -/
def sram_dump_tail (st : DevState) : DevState × List DevOut × List BusOp :=
  ({ st with cmdbuff := cleared_cmdbuff, buffcnt := 0, busMode := .writeM },
   [], [])

/-- The `0x0B` flash-write handler (lines 254-285); note `bank = bank + 1`
at line 282 touches the block-local shadow of `bank`, not the global. -/
def handler_write_rom (st : DevState) : DevState × List DevOut × List BusOp :=
  let addw := rom_write_base (st.cmdbuff.getD 6 0) (st.cmdbuff.getD 5 0)
  ({ st with cmdbuff := cleared_cmdbuff,
             receiveBuffer := memcleared st.receiveBuffer, buffcnt := 0 },
   [DevOut.writeOkRom addw],
   flash_program_ops st.receiveBuffer addw)

/-- The `0x1B` SRAM-write handler (lines 288-314). -/
def handler_write_sram (st : DevState) : DevState × List DevOut × List BusOp :=
  let addw := sram_write_base (st.cmdbuff.getD 6 0) (st.cmdbuff.getD 5 0)
  ({ st with cmdbuff := cleared_cmdbuff,
             receiveBuffer := memcleared st.receiveBuffer, buffcnt := 0,
             busMode := .readM },
   [DevOut.writeOkSram addw],
   [BusOp.enableSram true] ++ sram_write_ops st.receiveBuffer addw ++
     [BusOp.enableSram false])

/-- The `0x0C` connect handler (lines 317-323). -/
def handler_connect (st : DevState) : DevState × List DevOut × List BusOp :=
  ({ st with cmdbuff := cleared_cmdbuff, buffcnt := 0 },
   [DevOut.text "FlashMaster MD Dumper is connected\r\n"], [])

/-- The `0x0D` chip-id handler (lines 326-334). -/
def handler_check_id (st : DevState) : DevState × List DevOut × List BusOp :=
  ({ st with cmdbuff := cleared_cmdbuff, buffcnt := 0, busMode := .writeM },
   [DevOut.checkIdTrace], [BusOp.checkIdCall])

/-- The `0x0E` full-erase handler (lines 337-360). -/
def handler_full_erase (st : DevState) : DevState × List DevOut × List BusOp :=
  ({ st with cmdbuff := cleared_cmdbuff, buffcnt := 0, busMode := .readM },
   [DevOut.eraseFlashTrace, DevOut.text "SRAM ERASE START\r\n",
    DevOut.text "SRAM ERASE FINISH!!!\r\n"],
   [BusOp.eraseFlashCall, BusOp.enableSram true] ++ sram_zero_writes ++
     [BusOp.enableSram false])

/-- The `0x1E` erase-by-size handler (lines 363-453). -/
def handler_erase_by_size (st : DevState) : DevState × List DevOut × List BusOp :=
  let sel := st.cmdbuff.getD 5 0
  let address :=
    if sel == 0x0 then
      (st.cmdbuff.getD 6 0) * 65536 + (st.cmdbuff.getD 7 0) * 256 +
        st.cmdbuff.getD 8 0
    else 0
  let sectoradd := if sel == 0x0 then 1 else (sector_erase_span_msg sel).1
  let preMsg :=
    if sel == 0x0 then DevOut.sectorEraseStartMsg address
    else DevOut.text (sector_erase_span_msg sel).2
  let addrs := erase_by_size_addrs address 0 sectoradd
  let body : List DevOut × List BusOp :=
    if sel < 0x5 then
      (addrs.map (fun _ => DevOut.text "."),
       addrs.map (fun a => BusOp.eraseSectorCall a))
    else ([DevOut.eraseFlashTrace], [BusOp.eraseFlashCall])
  let postMsg :=
    -- for sel = 0 the span is 1, so the loop advances the address exactly once
    if sel == 0x0 then DevOut.sectorEraseOkMsg (erase_step_addr address)
    else DevOut.text (sector_erase_done_msg sel)
  ({ st with cmdbuff := cleared_cmdbuff, buffcnt := 0, busMode := .writeM },
   [preMsg] ++ body.1 ++ [postMsg], body.2)

/-- The `0x2E` explicit sector-erase handler (lines 456-467). -/
def handler_sector_erase (st : DevState) : DevState × List DevOut × List BusOp :=
  let address :=
    (st.cmdbuff.getD 5 0) * 65536 + (st.cmdbuff.getD 6 0) * 256 +
      st.cmdbuff.getD 7 0
  ({ st with cmdbuff := cleared_cmdbuff, buffcnt := 0, busMode := .readM },
   [DevOut.sectorEraseOkMsg address], [BusOp.eraseSectorCall address])

/-- The `0x0F` clear-buffer handler (lines 469-477): the only handler that
resets the global `bank`. -/
def handler_clear_buffer (st : DevState) : DevState × List DevOut × List BusOp :=
  ({ st with cmdbuff := cleared_cmdbuff, buffcnt := 0, bank := 0 },
   [DevOut.text "BUFF IS CLEAR\r\n"], [])

/-- One pass of the firmware's `while (1)` dispatcher (lines 164-477) over
the pending command slot: produces the new global state, the CDC
transmissions, and the bus operations.  A handler that fires ends with
`cmdclear()` and `buffcnt = 0`; the final bus direction of each path
follows the last `read_mode`/`write_mode`/`enableSram_MD` call on it
(`enableSram_MD` itself ends in `read_mode`).  The `0x0A` and `0x1A`
handlers place their trailing prompt/`write_mode()`/`cmdclear()` lines
outside the magic check (lines 208-211 and 249-251), so those tails run
even on a magic mismatch; every other handler does nothing at all then. -/
def dispatch (busWord busByte : Nat → Nat) (st : DevState) :
    DevState × List DevOut × List BusOp :=
  let cmd := st.cmdbuff.getD 0 0
  if cmd == 0x0A then
    if magicOk st.cmdbuff then handler_read_rom busWord st else rom_dump_tail st
  else if cmd == 0x1A then
    if magicOk st.cmdbuff then handler_read_sram busByte st else sram_dump_tail st
  else if cmd == 0x0B then
    if magicOk st.cmdbuff then handler_write_rom st else (st, [], [])
  else if cmd == 0x1B then
    if magicOk st.cmdbuff then handler_write_sram st else (st, [], [])
  else if cmd == 0x0C then
    if magicOk st.cmdbuff then handler_connect st else (st, [], [])
  else if cmd == 0x0D then
    if magicOk st.cmdbuff then handler_check_id st else (st, [], [])
  else if cmd == 0x0E then
    if magicOk st.cmdbuff then handler_full_erase st else (st, [], [])
  else if cmd == 0x1E then
    if magicOk st.cmdbuff then handler_erase_by_size st else (st, [], [])
  else if cmd == 0x2E then
    if magicOk st.cmdbuff then handler_sector_erase st else (st, [], [])
  else if cmd == 0x0F then
    if magicOk st.cmdbuff then handler_clear_buffer st else (st, [], [])
  else (st, [], [])

/-! ### Claim C3 -/

/-- A `ReadRom` (0x0A) packet whose magic bytes are all zero. -/
def c3_bad_packet : List Nat := 0x0A :: List.replicate 63 0

/-- A device state holding `c3_bad_packet` in the command slot. -/
def c3_state : DevState :=
  { cmdbuff := c3_bad_packet, receiveBuffer := List.replicate 1024 0,
    buffcnt := 7, bank := 3, busMode := .readM }

/-- C3 counterexample: a `ReadRom` packet with a wrong magic still makes
the dispatcher transmit the trailing prompt and mutate state — lines
208-211 sit outside the magic check — so "no action and no output on any
magic mismatch" is false (though no bus operation is issued). -/
theorem C3_magic_counterexample :
    magicOk c3_state.cmdbuff = false ∧
    dispatch (fun _ => 0) (fun _ => 0) c3_state ≠ (c3_state, [], []) ∧
    (dispatch (fun _ => 0) (fun _ => 0) c3_state).2.1 ≠ [] ∧
    (dispatch (fun _ => 0) (fun _ => 0) c3_state).1.busMode ≠ c3_state.busMode ∧
    (dispatch (fun _ => 0) (fun _ => 0) c3_state).1.buffcnt ≠ c3_state.buffcnt ∧
    (dispatch (fun _ => 0) (fun _ => 0) c3_state).2.2 = [] := by
  decide

set_option maxHeartbeats 2000000 in
/-- C3 (amended): on a magic mismatch the device issues no bus operation
and, for every opcode other than `ReadRom` (0x0A) and `ReadSram` (0x1A),
does nothing at all; for 0x0A it still transmits
"PUSH SAVE GAME BUTTON!!!", resets the bus to write mode, clears the
command slot and zeroes the buffer counter, and for 0x1A it does the same
without the text. -/
theorem C3_magic_gate_amended :
    ∀ (busWord busByte : Nat → Nat) (st : DevState),
      magicOk st.cmdbuff = false →
      ((st.cmdbuff.getD 0 0 ≠ 0x0A ∧ st.cmdbuff.getD 0 0 ≠ 0x1A) →
        dispatch busWord busByte st = (st, [], [])) ∧
      (st.cmdbuff.getD 0 0 = 0x0A →
        dispatch busWord busByte st =
          ({ st with cmdbuff := cleared_cmdbuff, buffcnt := 0, busMode := .writeM },
           [DevOut.text "PUSH SAVE GAME BUTTON!!!\r\n"], [])) ∧
      (st.cmdbuff.getD 0 0 = 0x1A →
        dispatch busWord busByte st =
          ({ st with cmdbuff := cleared_cmdbuff, buffcnt := 0, busMode := .writeM },
           [], [])) := by
  intro busWord busByte st hm
  refine ⟨?_, ?_, ?_⟩
  · rintro ⟨h1, h2⟩
    unfold dispatch
    dsimp only
    rw [hm, beq_eq_false_iff_ne.mpr h1, beq_eq_false_iff_ne.mpr h2]
    split_ifs <;> first | rfl | simp_all
  · intro h1
    unfold dispatch
    rw [h1, hm]
    rfl
  · intro h1
    unfold dispatch
    rw [h1, hm]
    rfl

/-- Witness for C3 (amended): a bad-magic `0x0B` packet is fully ignored;
a bad-magic `0x0A` packet still produces the prompt and the state reset. -/
theorem C3_magic_gate_amended_witness :
    dispatch (fun _ => 0) (fun _ => 0)
      { cmdbuff := 0x0B :: List.replicate 63 0,
        receiveBuffer := List.replicate 1024 0,
        buffcnt := 7, bank := 3, busMode := .readM } =
      ({ cmdbuff := 0x0B :: List.replicate 63 0,
         receiveBuffer := List.replicate 1024 0,
         buffcnt := 7, bank := 3, busMode := .readM }, [], []) ∧
    dispatch (fun _ => 0) (fun _ => 0) c3_state =
      ({ c3_state with cmdbuff := cleared_cmdbuff, buffcnt := 0, busMode := .writeM },
       [DevOut.text "PUSH SAVE GAME BUTTON!!!\r\n"], []) :=
  ⟨(C3_magic_gate_amended _ _ _ (by decide)).1 (by decide),
   (C3_magic_gate_amended _ _ c3_state (by decide)).2.1 (by decide)⟩

/-! ### Claim C4 -/

/-- A `WriteSram` (0x1B) packet with valid magic, page index 0 and bank
index 1, staged over an all-zero receive buffer. -/
def c4_state : DevState :=
  { cmdbuff := [0x1B, 0xAA, 0x55, 0xAA, 0xBB, 0x00, 0x01] ++ List.replicate 57 0,
    receiveBuffer := List.replicate 1024 0,
    buffcnt := 0, bank := 0, busMode := .writeM }

set_option maxRecDepth 8192 in
/-- C4 counterexample: for an SRAM write with `bank = 1`, `page = 0` the
device computes the physical address of logical offset 0 as
`1*64*1024 + 0*1024 + 0 = 65536` (line 291), not `bank*1024 + page = 1024`
as claimed; the first byte write the dispatcher emits for `c4_state` is at
address 65536. -/
theorem C4_sram_addressing_counterexample :
    (sram_write_ops (List.replicate 1024 0) (sram_write_base 1 0)).head? =
      some (BusOp.sramWrite 65536 0 true) ∧
    (65536 : Nat) ≠ 1 * 1024 + 0 ∧
    (dispatch (fun _ => 0) (fun _ => 0) c4_state).2.2.getD 1 BusOp.eraseFlashCall =
      BusOp.sramWrite 65536 0 true := by
  decide

/-- C4 (amended): SRAM writes land at
`address = bank*64*1024 + page*1024 + offset` with the A20 line forced
active on every access; the device-side SRAM dump loop reads address
`page*1024 + offset` (its page counter is the loop index, no bank), also
with A20 forced active. -/
theorem C4_sram_addressing_amended :
    (∀ (rb : List Nat) (b a i : Nat), i < 1024 →
      (sram_write_ops rb (sram_write_base b a))[i]? =
        some (BusOp.sramWrite (b * (64 * 1024) + a * 1024 + i) (rb.getD i 0) true)) ∧
    (∀ wsize j i : Nat, j < wsize → i < 1024 →
      BusOp.sramRead (j * 1024 + i) true ∈ sram_dump_reads wsize) ∧
    (∀ (wsize : Nat) (op : BusOp), op ∈ sram_dump_reads wsize →
      ∃ addr, op = BusOp.sramRead addr true) ∧
    (∀ (rb : List Nat) (addw : Nat) (op : BusOp), op ∈ sram_write_ops rb addw →
      ∃ addr v, op = BusOp.sramWrite addr v true) := by
  refine ⟨?_, ?_, ?_, ?_⟩
  · intro rb b a i hi
    simp only [sram_write_ops, List.getElem?_map, List.getElem?_range hi,
      Option.map_some', sram_write_base, Option.some.injEq, BusOp.sramWrite.injEq,
      and_true]
    omega
  · intro wsize j i hj hi
    exact List.mem_flatMap.mpr
      ⟨j, List.mem_range.mpr hj, List.mem_map.mpr ⟨i, List.mem_range.mpr hi, rfl⟩⟩
  · intro wsize op hop
    rcases List.mem_flatMap.mp hop with ⟨j, _, hm2⟩
    rcases List.mem_map.mp hm2 with ⟨i, _, rfl⟩
    exact ⟨j * 1024 + i, rfl⟩
  · intro rb addw op hop
    rcases List.mem_map.mp hop with ⟨i, _, rfl⟩
    exact ⟨i + addw, rb.getD i 0, rfl⟩

/-- Witness for C4 (amended) at `bank = 2`, `page = 3`, offset 0 and at
dump page 1, offset 5. -/
theorem C4_sram_addressing_amended_witness :
    (sram_write_ops [9] (sram_write_base 2 3))[0]? =
      some (BusOp.sramWrite (2 * (64 * 1024) + 3 * 1024 + 0) 9 true) ∧
    BusOp.sramRead (1 * 1024 + 5) true ∈ sram_dump_reads 32 :=
  ⟨C4_sram_addressing_amended.1 [9] 2 3 0 (by decide),
   C4_sram_addressing_amended.2.1 32 1 5 (by decide) (by decide)⟩

/-! ### Claim C6 -/

theorem getD_replicate_of_lt {a d n i : Nat} (h : i < n) :
    (List.replicate n a).getD i d = a := by
  rw [List.getD_eq_getElem?_getD, List.getElem?_replicate, if_pos h]
  rfl

/-- A chunk whose first 16-bit word is `FF 00` (an erased-value byte paired
with a programmed one) and whose remaining words are all `FF FF`. -/
def c6_chunk : List Nat := 0xFF :: 0x00 :: List.replicate 1022 0xFF

/-- C6 counterexample: the device skips per 16-bit word, not per byte.  In
`c6_chunk` the byte at offset 0 equals the erased value `0xFF`, yet because
its partner byte is `0x00` the word is programmed: the unlock sequence and
the program command are issued and the `0xFF` byte goes out on the bus
(lines 260-269 test both bytes of the word pair). -/
theorem C6_flash_skip_counterexample :
    c6_chunk.getD 0 0 = 0xFF ∧
    flash_word_ops c6_chunk 0 0 =
      [BusOp.setByteOp 0x555 0xAA, BusOp.setByteOp 0x2AA 0x55,
       BusOp.setByteOp 0x555 0xA0, BusOp.flashDataWrite 0 0xFF 0x00] := by
  decide

/-- C6 (amended): programming skips per 16-bit word: a fully erased chunk
(`0xFF` everywhere) produces no bus operation at all; every data write the
loop emits carries a word pair that is not `FF FF`; and every word pair
that is not `FF FF` is programmed, at word address `w + addw` with exactly
its two chunk bytes. -/
theorem C6_flash_word_skip_amended :
    (∀ addw, flash_program_ops (List.replicate 1024 0xFF) addw = []) ∧
    (∀ (rb : List Nat) (addw a hi lo : Nat),
      BusOp.flashDataWrite a hi lo ∈ flash_program_ops rb addw →
      ¬(hi = 0xFF ∧ lo = 0xFF)) ∧
    (∀ (rb : List Nat) (addw w : Nat), w < 512 →
      ¬(rb.getD (2 * w) 0 = 0xFF ∧ rb.getD (2 * w + 1) 0 = 0xFF) →
      BusOp.flashDataWrite (w + addw) (rb.getD (2 * w) 0) (rb.getD (2 * w + 1) 0) ∈
        flash_program_ops rb addw) := by
  refine ⟨?_, ?_, ?_⟩
  · intro addw
    unfold flash_program_ops
    rw [List.flatMap_eq_nil_iff]
    intro w hw
    have hw2 : 2 * w < 1024 := by
      have := List.mem_range.mp hw
      omega
    unfold flash_word_ops
    rw [getD_replicate_of_lt hw2, getD_replicate_of_lt (by omega)]
    rfl
  · intro rb addw a hi lo hmem
    rcases List.mem_flatMap.mp hmem with ⟨w, _, hin⟩
    unfold flash_word_ops at hin
    split_ifs at hin with hcond
    · cases hin
    · simp only [List.mem_cons, List.mem_singleton] at hin
      rcases hin with h | h | h | h | h
      · cases h
      · cases h
      · cases h
      · rcases BusOp.flashDataWrite.inj h with ⟨_, h2, h3⟩
        subst h2
        subst h3
        intro hc
        rw [hc.1, hc.2] at hcond
        simp at hcond
      · cases h
  · intro rb addw w hw hne
    apply List.mem_flatMap.mpr
    refine ⟨w, List.mem_range.mpr hw, ?_⟩
    unfold flash_word_ops
    rw [if_neg (by simpa using hne)]
    have hdiv : 2 * w / 2 = w := Nat.mul_div_cancel_left w (by norm_num)
    rw [hdiv]
    simp

/-- Witness for C6 (amended): an all-erased chunk programs nothing; the
word `AB CD` at offset 0 is programmed to word address 7. -/
theorem C6_flash_word_skip_amended_witness :
    flash_program_ops (List.replicate 1024 0xFF) 5 = [] ∧
    BusOp.flashDataWrite 7 0xAB 0xCD ∈ flash_program_ops [0xAB, 0xCD] 7 :=
  ⟨C6_flash_word_skip_amended.1 5,
   C6_flash_word_skip_amended.2.2 [0xAB, 0xCD] 7 0 (by decide) (by decide)⟩
